import Mathlib

/-!
Verification of `src/sentry/eventstream/kafka/backend.py` (class `KafkaEventStream`).

The file shallowly embeds the two halves of the backend:

* the event publisher (`publish`, `delivery_callback`): pure functions that
  return the sequence of effects (producer drain poll, produce call, warning
  log) together with the outcome (normal return or a propagated error from the
  producing client, which is an external collaborator modelled as a function
  argument `produceResult`);
* the relay loop (`relay`): a function over a finite list of poll events
  (poll timeout, polled message, external keyboard interrupt) that returns the
  trace of effects (dispatch, commit, info log, close) and the loop outcome.
  The synchronized consumer, the envelope parser `parse_event_message` and the
  post-processing dispatcher are external collaborators; the parser is the
  function argument `parse`, dispatch and commit are recorded as trace actions.

JSON serialization (`sentry.utils.json.dumps`) is external; produced values are
modelled as the JSON document tree handed to it.  Machine integers do not
occur: Python integers are unbounded, Kafka offsets are modelled as `Nat`.
-/

/-- JSON document tree: the shape of the Python tuple/dict structure that
`publish` hands to `json.dumps`. -/
inductive JsonV where
  | null : JsonV
  | bool (b : Bool) : JsonV
  | num (n : Int) : JsonV
  | str (s : String) : JsonV
  | arr (elems : List JsonV) : JsonV
  | obj (fields : List (String × JsonV)) : JsonV

/-- The attributes of the application event object that `publish` reads
(`event.project_id`, `event.event_id`, `event.group_id`,
`event.project.organization_id`, `event.message`, `event.platform`,
`event.datetime`, `event.data`). `datetime` is kept as an opaque JSON value
since its serialization belongs to the external json collaborator. -/
structure Event where
  project_id : Int
  organization_id : Int
  event_id : String
  group_id : Int
  message : String
  platform : String
  datetime : JsonV
  data : List (String × JsonV)

/-- A message handed to `producer.produce`: topic, key bytes, JSON value. -/
structure ProducedMessage where
  topic : String
  key : List UInt8
  value : JsonV

/-- Effects of the publisher path. -/
inductive PubAction where
  | drainPoll : PubAction
  | produce (m : ProducedMessage) : PubAction
  | logWarning (context : String) : PubAction

/-- Source constant `EVENT_PROTOCOL_VERSION = 1`. -/
def EVENT_PROTOCOL_VERSION : Int := 1

/-- UTF-8 encoding of a string, as the list of its bytes
(source: `key.encode('utf-8')`). -/
def utf8Encode (s : String) : List UInt8 :=
  s.toUTF8.data.toList

/-- The message built inside the `try` block of `publish`:
key `'%s:%s' % (event.project_id, event.event_id)` encoded as UTF-8, and the
value tuple `(EVENT_PROTOCOL_VERSION, 'insert', {event record}, {state record})`
with the records' fields exactly as written in the source. `retention_days`
was resolved before the block via the external quota collaborator. -/
def buildMessage (publish_topic : String) (e : Event) (retention_days : Int)
    (is_new is_sample is_regression is_new_group_environment : Bool)
    (primary_hash : String) : ProducedMessage :=
  ⟨publish_topic,
   utf8Encode (toString e.project_id ++ ":" ++ e.event_id),
   JsonV.arr
     [JsonV.num EVENT_PROTOCOL_VERSION,
      JsonV.str "insert",
      JsonV.obj
        [("group_id", JsonV.num e.group_id),
         ("event_id", JsonV.str e.event_id),
         ("organization_id", JsonV.num e.organization_id),
         ("project_id", JsonV.num e.project_id),
         ("message", JsonV.str e.message),
         ("platform", JsonV.str e.platform),
         ("datetime", e.datetime),
         ("data", JsonV.obj e.data),
         ("primary_hash", JsonV.str primary_hash),
         ("retention_days", JsonV.num retention_days)],
      JsonV.obj
        [("is_new", JsonV.bool is_new),
         ("is_sample", JsonV.bool is_sample),
         ("is_regression", JsonV.bool is_regression),
         ("is_new_group_environment", JsonV.bool is_new_group_environment)]]⟩

/-- `KafkaEventStream.publish`.  External collaborators are arguments:
`getEventRetention` models `quotas.get_event_retention` keyed by the
organization id, and `produceResult` models the outcome of the
`producer.produce` enqueue (ok, or a synchronously raised error).  The
returned pair is the list of effects and the call outcome; on a produce
failure the source logs a warning and re-raises, which here is the
`Except.error` outcome.  `group` and `skip_consume` are parameters of the
source function that its body never reads. -/
def publish (getEventRetention : Int → Int)
    (produceResult : ProducedMessage → Except String Unit)
    (publish_topic : String) (group : Int) (e : Event)
    (is_new is_sample is_regression is_new_group_environment : Bool)
    (primary_hash : String) (skip_consume : Bool) :
    List PubAction × Except String Unit :=
  let retention_days := getEventRetention e.organization_id
  let msg := buildMessage publish_topic e retention_days
    is_new is_sample is_regression is_new_group_environment primary_hash
  match produceResult msg with
  | Except.ok _ => ([PubAction.drainPoll, PubAction.produce msg], Except.ok ())
  | Except.error err =>
      ([PubAction.drainPoll,
        PubAction.logWarning ("Could not publish event: " ++ err)],
       Except.error err)

/-- `KafkaEventStream.delivery_callback`: invoked by the producing client with
the delivery outcome.  Returns the effects it performs: a warning log when an
error is reported, nothing otherwise (its body has no retry and no raise). -/
def delivery_callback (error : Option String) (message : String) :
    List PubAction :=
  match error with
  | some e =>
      [PubAction.logWarning
        (("Could not publish event (error: " ++ e ++ "): ") ++ message)]
  | none => []

/-! ## Relay loop embedding -/

/-- Offset-tracker key: `(message.topic(), message.partition())`. -/
abbrev PartKey := String × Nat

/-- A message returned by `consumer.poll`, over an abstract value type `V`
(the raw bytes passed to the external `parse_event_message`). -/
structure Message (V : Type) where
  topic : String
  partition : Nat
  offset : Nat
  error : Option String
  value : V
deriving DecidableEq

/-- One iteration's poll outcome: `poll` timed out (`None` in the source), a
message arrived, or the external `KeyboardInterrupt` stopped the loop. -/
inductive PollEvent (V : Type) where
  | timeout : PollEvent V
  | msg (m : Message V) : PollEvent V
  | interrupt : PollEvent V
deriving DecidableEq

/-- Observable effects of the relay, over an abstract payload type `P` (the
dict returned by the external `parse_event_message`). A commit records the
`TopicPartition(topic, partition, offset)` triples built from the tracker and
whether the call was synchronous (`asynchronous=False` gives `true`). -/
inductive RelayAction (P : Type) where
  | dispatch (payload : P) : RelayAction P
  | commit (offsets : List (String × Nat × Nat)) (synchronous : Bool) : RelayAction P
  | logInfo : RelayAction P
  | close : RelayAction P
deriving DecidableEq

/-- How the processed portion of the event list ended. -/
inductive LoopEnd where
  | exhausted : LoopEnd
  | interrupted : LoopEnd
  | fatal (e : String) : LoopEnd
deriving DecidableEq

/-- State and trace after running the `while True` body over a finite list of
poll events. -/
structure RunResult (P : Type) where
  actions : List (RelayAction P)
  ending : LoopEnd
  count : Nat
  offsets : List (PartKey × Nat)
deriving DecidableEq

/-- Python dict assignment `offsets[(topic, partition)] = v`: replace the
binding in place if the key is present, otherwise append it. -/
def updateOffset (offs : List (PartKey × Nat)) (k : PartKey) (v : Nat) :
    List (PartKey × Nat) :=
  match offs with
  | [] => [(k, v)]
  | (k', v') :: rest =>
      if k' = k then (k, v) :: rest else (k', v') :: updateOffset rest k v

/-- Python dict lookup on the offset tracker. -/
def lookupOffset (offs : List (PartKey × Nat)) (k : PartKey) : Option Nat :=
  match offs with
  | [] => none
  | (k', v) :: rest => if k' = k then some v else lookupOffset rest k

/-- The `TopicPartition(topic, partition, offset)` list that `commit_offsets`
builds from the tracker's items. -/
def commitPayload (offs : List (PartKey × Nat)) : List (String × Nat × Nat) :=
  offs.map (fun kv => (kv.1.1, kv.1.2, kv.2))

/-- The `while True` loop of `KafkaEventStream.relay`, run over a finite list
of poll events, starting from consumed count `i` and offset tracker `offs`.
Per iteration, matching the source order: a `None` poll result is skipped; a
message with a broker-reported error raises (fatal end, nothing else done);
otherwise the count is incremented, the tracker entry for the message's
(topic, partition) is set to `offset + 1`, the parsed payload (if any) is
dispatched, and when `count % commit_batch_size == 0` the full tracker is
committed synchronously.  An interrupt ends the loop gracefully. -/
def relayLoop (parse : V → Option P) (commit_batch_size : Nat) :
    List (PollEvent V) → Nat → List (PartKey × Nat) → RunResult P
  | [], i, offs => ⟨[], LoopEnd.exhausted, i, offs⟩
  | PollEvent.timeout :: rest, i, offs => relayLoop parse commit_batch_size rest i offs
  | PollEvent.interrupt :: _, i, offs => ⟨[], LoopEnd.interrupted, i, offs⟩
  | PollEvent.msg m :: rest, i, offs =>
    match m.error with
    | some e => ⟨[], LoopEnd.fatal e, i, offs⟩
    | none =>
      let offs' := updateOffset offs (m.topic, m.partition) (m.offset + 1)
      let dacts : List (RelayAction P) :=
        match parse m.value with
        | some p => [RelayAction.dispatch p]
        | none => []
      let cacts : List (RelayAction P) :=
        if (i + 1) % commit_batch_size = 0
        then [RelayAction.commit (commitPayload offs') true] else []
      let r := relayLoop parse commit_batch_size rest (i + 1) offs'
      ⟨dacts ++ cacts ++ r.actions, r.ending, r.count, r.offsets⟩

/-- How a `relay` call ends on a finite event list: still in the loop
(events exhausted), returned normally after the graceful-shutdown block, or
terminated by the re-raised broker error. -/
inductive RelayOutcome where
  | running : RelayOutcome
  | shutdown : RelayOutcome
  | raised (e : String) : RelayOutcome
deriving DecidableEq

/-- `KafkaEventStream.relay` over a finite list of poll events: run the loop;
on `KeyboardInterrupt` (caught by the `except` and passed) log, commit the
tracker if it is non-empty, and close the consumer; a broker-error raise
propagates past the handler, so none of that runs on the fatal path. -/
def relay (parse : V → Option P) (commit_batch_size : Nat)
    (events : List (PollEvent V)) : List (RelayAction P) × RelayOutcome :=
  let r := relayLoop parse commit_batch_size events 0 []
  match r.ending with
  | LoopEnd.fatal e => (r.actions, RelayOutcome.raised e)
  | LoopEnd.exhausted => (r.actions, RelayOutcome.running)
  | LoopEnd.interrupted =>
      (r.actions ++ [RelayAction.logInfo] ++
        (if r.offsets.isEmpty then []
         else [RelayAction.commit (commitPayload r.offsets) true]) ++
        [RelayAction.close],
       RelayOutcome.shutdown)

/-! ## Derived views of the relay trace, used to state the claims -/

/-- The offset tracker contents after processing a list of valid messages,
starting from tracker `offs`. -/
def trackerFrom (offs : List (PartKey × Nat)) (msgs : List (Message V)) :
    List (PartKey × Nat) :=
  msgs.foldl (fun offs m => updateOffset offs (m.topic, m.partition) (m.offset + 1)) offs

/-- The offset tracker contents after processing a list of valid messages. -/
def trackerAfter (msgs : List (Message V)) : List (PartKey × Nat) :=
  trackerFrom [] msgs

/-- The offsets, in order, of the messages on one (topic, partition) key. -/
def offsetsOn (k : PartKey) (msgs : List (Message V)) : List Nat :=
  msgs.filterMap (fun m => if (m.topic, m.partition) = k then some m.offset else none)

/-- Extract a commit action's content. -/
def commitOf : RelayAction P → Option (List (String × Nat × Nat) × Bool)
  | RelayAction.commit offs sync => some (offs, sync)
  | _ => none

/-- Extract a dispatch action's payload. -/
def dispatchOf : RelayAction P → Option P
  | RelayAction.dispatch p => some p
  | _ => none

/-- Extract a produce action's message. -/
def produceOf : PubAction → Option ProducedMessage
  | PubAction.produce m => some m
  | _ => none

/-! ## Helper lemmas -/

theorem lookupOffset_updateOffset (offs : List (PartKey × Nat)) (k q : PartKey)
    (v : Nat) :
    lookupOffset (updateOffset offs k v) q =
      if q = k then some v else lookupOffset offs q := by
  induction offs with
  | nil =>
    by_cases h : q = k
    · subst h; simp [updateOffset, lookupOffset]
    · have h' : ¬k = q := fun hh => h hh.symm
      simp [updateOffset, lookupOffset, h, h']
  | cons hd tl ih =>
    obtain ⟨k', v'⟩ := hd
    by_cases hk : k' = k
    · subst hk
      by_cases hq : q = k'
      · subst hq; simp [updateOffset, lookupOffset]
      · have hq' : ¬k' = q := fun hh => hq hh.symm
        simp [updateOffset, lookupOffset, hq, hq']
    · by_cases hq : k' = q
      · subst hq
        simp [updateOffset, lookupOffset, hk]
      · simp [updateOffset, lookupOffset, hk, hq, ih]

theorem updateOffset_ne_nil (offs : List (PartKey × Nat)) (k : PartKey)
    (v : Nat) : updateOffset offs k v ≠ [] := by
  cases offs with
  | nil => simp [updateOffset]
  | cons hd tl =>
    obtain ⟨k', v'⟩ := hd
    by_cases hk : k' = k <;> simp [updateOffset, hk]

theorem trackerFrom_cons (offs : List (PartKey × Nat)) (m : Message V)
    (msgs : List (Message V)) :
    trackerFrom offs (m :: msgs) =
      trackerFrom (updateOffset offs (m.topic, m.partition) (m.offset + 1)) msgs := rfl

theorem trackerFrom_append (offs : List (PartKey × Nat))
    (l₁ l₂ : List (Message V)) :
    trackerFrom offs (l₁ ++ l₂) = trackerFrom (trackerFrom offs l₁) l₂ := by
  simp [trackerFrom, List.foldl_append]

theorem trackerFrom_ne_nil (offs : List (PartKey × Nat))
    (msgs : List (Message V)) (h : offs ≠ []) : trackerFrom offs msgs ≠ [] := by
  induction msgs generalizing offs with
  | nil => exact h
  | cons m tl ih =>
    rw [trackerFrom_cons]
    exact ih _ (updateOffset_ne_nil _ _ _)

theorem trackerAfter_eq_nil_iff (msgs : List (Message V)) :
    trackerAfter msgs = [] ↔ msgs = [] := by
  cases msgs with
  | nil => simp [trackerAfter, trackerFrom]
  | cons m tl =>
    simp only [trackerAfter, trackerFrom_cons]
    constructor
    · intro h
      exact absurd h (trackerFrom_ne_nil _ _ (updateOffset_ne_nil _ _ _))
    · intro h
      exact absurd h (by simp)

/-- Running the loop body over valid messages only: the events are exhausted
without stopping, every message is counted, and the final tracker is the fold
of the per-message updates. -/
theorem relayLoop_valid_state (parse : V → Option P) (k : Nat)
    (msgs : List (Message V)) (hvalid : ∀ m ∈ msgs, m.error = none) :
    ∀ i offs,
      (relayLoop parse k (msgs.map PollEvent.msg) i offs).ending = LoopEnd.exhausted ∧
      (relayLoop parse k (msgs.map PollEvent.msg) i offs).count = i + msgs.length ∧
      (relayLoop parse k (msgs.map PollEvent.msg) i offs).offsets = trackerFrom offs msgs := by
  induction msgs with
  | nil => intro i offs; simp [relayLoop, trackerFrom]
  | cons m tl ih =>
    intro i offs
    have hm : m.error = none := hvalid m (by simp)
    have htl : ∀ m ∈ tl, m.error = none := fun x hx => hvalid x (by simp [hx])
    obtain ⟨h1, h2, h3⟩ := ih htl (i + 1)
      (updateOffset offs (m.topic, m.partition) (m.offset + 1))
    simp only [List.map_cons, relayLoop, hm]
    refine ⟨h1, ?_, h3⟩
    rw [h2]
    simp [List.length_cons]
    omega

/-- Appending events to a run that exhausted its input continues it from the
reached state. -/
theorem relayLoop_append (parse : V → Option P) (k : Nat)
    (l₁ l₂ : List (PollEvent V)) :
    ∀ i offs, (relayLoop parse k l₁ i offs).ending = LoopEnd.exhausted →
      relayLoop parse k (l₁ ++ l₂) i offs =
        ⟨(relayLoop parse k l₁ i offs).actions ++
          (relayLoop parse k l₂ (relayLoop parse k l₁ i offs).count
            (relayLoop parse k l₁ i offs).offsets).actions,
         (relayLoop parse k l₂ (relayLoop parse k l₁ i offs).count
            (relayLoop parse k l₁ i offs).offsets).ending,
         (relayLoop parse k l₂ (relayLoop parse k l₁ i offs).count
            (relayLoop parse k l₁ i offs).offsets).count,
         (relayLoop parse k l₂ (relayLoop parse k l₁ i offs).count
            (relayLoop parse k l₁ i offs).offsets).offsets⟩ := by
  induction l₁ with
  | nil => intro i offs _; simp [relayLoop]
  | cons ev tl ih =>
    intro i offs h
    cases ev with
    | timeout =>
      simp only [List.cons_append, relayLoop] at h ⊢
      exact ih i offs h
    | interrupt => simp [relayLoop] at h
    | msg m =>
      cases herr : m.error with
      | some e => simp [relayLoop, herr] at h
      | none =>
        simp only [List.cons_append, relayLoop, herr] at h ⊢
        simp only [List.append_eq]
        rw [ih _ _ h]
        simp

/-- Every action the loop body itself emits is a dispatch or a batch commit
(the info log, the final commit and the close are added by `relay` after the
loop). -/
theorem relayLoop_actions_shape (parse : V → Option P) (k : Nat)
    (events : List (PollEvent V)) :
    ∀ i offs, ∀ a ∈ (relayLoop parse k events i offs).actions,
      (∃ p, a = RelayAction.dispatch p) ∨
      (∃ offs' sync, a = RelayAction.commit offs' sync) := by
  induction events with
  | nil => intro i offs a ha; simp [relayLoop] at ha
  | cons ev tl ih =>
    intro i offs a ha
    cases ev with
    | timeout =>
      simp only [relayLoop] at ha
      exact ih i offs a ha
    | interrupt => simp [relayLoop] at ha
    | msg m =>
      cases herr : m.error with
      | some e => simp [relayLoop, herr] at ha
      | none =>
        simp only [relayLoop, herr, List.mem_append] at ha
        rcases ha with (ha | ha) | ha
        · cases hp : parse m.value <;> simp [hp] at ha
          exact Or.inl ⟨_, ha⟩
        · by_cases hc : (i + 1) % k = 0 <;> simp [hc] at ha
          exact Or.inr ⟨_, _, ha⟩
        · exact ih _ _ a ha

/-- Commits emitted by the loop body over valid messages, continuing a run
whose processed history is `pre`: one synchronous commit of the full tracker
at every consumed-count that is a multiple of the batch size. -/
theorem relayLoop_commits (parse : V → Option P) (k : Nat) :
    ∀ (msgs pre : List (Message V)), (∀ m ∈ msgs, m.error = none) →
      List.filterMap commitOf
          (relayLoop parse k (msgs.map PollEvent.msg) pre.length (trackerAfter pre)).actions
        = ((List.range' (pre.length + 1) msgs.length).filter (fun t => t % k = 0)).map
            (fun t => (commitPayload (trackerAfter ((pre ++ msgs).take t)), true)) := by
  intro msgs
  induction msgs with
  | nil => intro pre _; simp [relayLoop]
  | cons m tl ih =>
    intro pre hvalid
    have hm : m.error = none := hvalid m (by simp)
    have htl : ∀ x ∈ tl, x.error = none := fun x hx => hvalid x (by simp [hx])
    have hupd : updateOffset (trackerAfter pre) (m.topic, m.partition) (m.offset + 1)
        = trackerAfter (pre ++ [m]) := by
      simp [trackerAfter, trackerFrom_append, trackerFrom]
    have hlen : (pre ++ [m]).length = pre.length + 1 := by simp
    have hih := ih (pre ++ [m]) htl
    rw [hlen] at hih
    have hsplit : pre ++ m :: tl = (pre ++ [m]) ++ tl := by simp
    have htake : List.take (pre.length + 1) ((pre ++ [m]) ++ tl) = pre ++ [m] := by
      rw [← hlen]
      exact List.take_left _ _
    simp only [List.map_cons, relayLoop, hm]
    rw [List.filterMap_append, List.filterMap_append, hupd, hih, hsplit]
    simp only [List.length_cons, List.range'_succ, List.filter_cons]
    have hd : List.filterMap commitOf
        (match parse m.value with
         | some p => [RelayAction.dispatch p]
         | none => ([] : List (RelayAction P))) = [] := by
      cases parse m.value <;> simp [commitOf]
    rw [hd]
    by_cases hc : (pre.length + 1) % k = 0
    · have hc' : decide ((pre.length + 1) % k = 0) = true := decide_eq_true hc
      rw [if_pos hc, if_pos hc']
      simp only [List.map_cons]
      rw [htake]
      simp [commitOf]
    · have hc' : ¬decide ((pre.length + 1) % k = 0) = true := by simp [hc]
      rw [if_neg hc, if_neg hc']
      simp [commitOf]

/-- The count of batch boundaries among the first `n` consumed counts. -/
theorem count_multiples (k : Nat) :
    ∀ n : Nat, ((List.range' 1 n).filter (fun t => t % k = 0)).length = n / k := by
  intro n
  induction n with
  | zero => simp
  | succ n ih =>
    rw [List.range'_concat, List.filter_append, List.length_append, ih]
    have h1 : 1 + 1 * n = n + 1 := by omega
    rw [h1]
    by_cases hc : (n + 1) % k = 0
    · have hdvd : k ∣ n + 1 := Nat.dvd_of_mod_eq_zero hc
      simp [hc, Nat.succ_div, hdvd]
    · have hdvd : ¬k ∣ n + 1 := by
        intro hd
        obtain ⟨c, hcc⟩ := hd
        exact hc (by rw [hcc]; exact Nat.mul_mod_right k c)
      simp [hc, Nat.succ_div, hdvd]

/-- Dispatches emitted by the loop body over valid messages: exactly the
non-empty parses, in order. -/
theorem relayLoop_dispatches (parse : V → Option P) (k : Nat) :
    ∀ (msgs : List (Message V)), (∀ m ∈ msgs, m.error = none) →
      ∀ i offs,
        List.filterMap dispatchOf
            (relayLoop parse k (msgs.map PollEvent.msg) i offs).actions
          = msgs.filterMap (fun m => parse m.value) := by
  intro msgs
  induction msgs with
  | nil => intro _ i offs; simp [relayLoop]
  | cons m tl ih =>
    intro hvalid i offs
    have hm : m.error = none := hvalid m (by simp)
    have htl : ∀ x ∈ tl, x.error = none := fun x hx => hvalid x (by simp [hx])
    simp only [List.map_cons, relayLoop, hm]
    rw [List.filterMap_append, List.filterMap_append, ih htl]
    by_cases hc : (i + 1) % k = 0 <;>
      cases hp : parse m.value <;>
        simp [dispatchOf, hc, hp, List.filterMap_cons]

theorem offsetsOn_append (q : PartKey) (l₁ l₂ : List (Message V)) :
    offsetsOn q (l₁ ++ l₂) = offsetsOn q l₁ ++ offsetsOn q l₂ := by
  simp [offsetsOn, List.filterMap_append]

theorem offsetsOn_singleton (q : PartKey) (m : Message V) :
    offsetsOn q [m] = if (m.topic, m.partition) = q then [m.offset] else [] := by
  by_cases h : (m.topic, m.partition) = q <;> simp [offsetsOn, h]

/-- The tracker entry for a key is one past the offset of the last message
seen on that key (and absent when no message was seen on it). -/
theorem lookupOffset_trackerAfter (msgs : List (Message V)) (q : PartKey) :
    lookupOffset (trackerAfter msgs) q
      = (offsetsOn q msgs).getLast?.map (fun o => o + 1) := by
  induction msgs using List.reverseRecOn with
  | nil => simp [trackerAfter, trackerFrom, lookupOffset, offsetsOn]
  | append_singleton l m ih =>
    have hupd : trackerAfter (l ++ [m])
        = updateOffset (trackerAfter l) (m.topic, m.partition) (m.offset + 1) := by
      simp [trackerAfter, trackerFrom_append, trackerFrom]
    rw [hupd, lookupOffset_updateOffset, offsetsOn_append, offsetsOn_singleton]
    by_cases hq : q = (m.topic, m.partition)
    · rw [if_pos hq, if_pos hq.symm, List.getLast?_concat]
      simp
    · have hq' : ¬(m.topic, m.partition) = q := fun hh => hq hh.symm
      rw [if_neg hq, if_neg hq', List.append_nil]
      exact ih

theorem mem_of_getLast?_eq_some {α : Type} {l : List α} {a : α}
    (h : l.getLast? = some a) : a ∈ l := by
  cases l with
  | nil => simp at h
  | cons b tl =>
    have hne : b :: tl ≠ [] := by simp
    rw [List.getLast?_eq_getLast (b :: tl) hne] at h
    exact (Option.some_inj.mp h) ▸ List.getLast_mem hne

theorem getLast?_le_of_sorted_append (l t : List Nat)
    (hs : List.Pairwise (fun a b => a ≤ b) (l ++ t)) (v : Nat)
    (hv : l.getLast? = some v) :
    ∃ w, (l ++ t).getLast? = some w ∧ v ≤ w := by
  cases ht : t.getLast? with
  | none =>
    have hnil : t = [] := List.getLast?_eq_none_iff.mp ht
    subst hnil
    exact ⟨v, by simpa using hv, le_refl v⟩
  | some w =>
    refine ⟨w, ?_, ?_⟩
    · rw [List.getLast?_append, ht]
      rfl
    · have hvmem : v ∈ l := mem_of_getLast?_eq_some hv
      have hwmem : w ∈ t := mem_of_getLast?_eq_some ht
      exact (List.pairwise_append.mp hs).2.2 v hvmem w hwmem

/-- Per-key per-partition delivery order carries over to the extracted offset
sequence of any single key. -/
theorem offsetsOn_pairwise_le (q : PartKey) (msgs : List (Message V))
    (hs : List.Pairwise
      (fun a b => (a.topic, a.partition) = (b.topic, b.partition) →
        a.offset ≤ b.offset) msgs) :
    List.Pairwise (fun a b => a ≤ b) (offsetsOn q msgs) := by
  rw [offsetsOn, List.pairwise_filterMap]
  refine List.Pairwise.imp ?_ hs
  intro a b hab x hx y hy
  by_cases ha : (a.topic, a.partition) = q
  · by_cases hb : (b.topic, b.partition) = q
    · simp only [ha, if_pos] at hx
      simp only [hb, if_pos] at hy
      simp only [Option.mem_def, Option.some_inj] at hx hy
      subst hx
      subst hy
      exact hab (ha.trans hb.symm)
    · simp [hb] at hy
  · simp [ha] at hx

theorem trackerAfter_isEmpty (msgs : List (Message V)) :
    (trackerAfter msgs).isEmpty = msgs.isEmpty := by
  cases msgs with
  | nil => rfl
  | cons a tl =>
    have h : trackerAfter (a :: tl) ≠ [] := by
      rw [Ne, trackerAfter_eq_nil_iff]
      simp
    cases hx : trackerAfter (a :: tl) with
    | nil => exact absurd hx h
    | cons y ys => rfl

/-- A run over valid messages followed by a keyboard interrupt: the relay
returns normally after the shutdown block, whose actions are the info log, the
final synchronous commit when the tracker is non-empty, and the close. -/
theorem relay_interrupt_trace (parse : V → Option P) (k : Nat)
    (msgs : List (Message V)) (hvalid : ∀ m ∈ msgs, m.error = none) :
    relay parse k (msgs.map PollEvent.msg ++ [PollEvent.interrupt])
      = ((relayLoop parse k (msgs.map PollEvent.msg) 0 []).actions
          ++ [RelayAction.logInfo]
          ++ (if msgs.isEmpty then []
              else [RelayAction.commit (commitPayload (trackerAfter msgs)) true])
          ++ [RelayAction.close],
         RelayOutcome.shutdown) := by
  obtain ⟨hend, hcount, hoffs⟩ := relayLoop_valid_state parse k msgs hvalid 0 []
  have happ := relayLoop_append parse k (msgs.map PollEvent.msg)
    [PollEvent.interrupt] 0 [] hend
  simp only [relay]
  rw [happ]
  simp only [relayLoop]
  rw [hoffs]
  have htr : trackerFrom ([] : List (PartKey × Nat)) msgs = trackerAfter msgs := rfl
  rw [htr, trackerAfter_isEmpty]
  simp

/-! ## Claim theorems -/

/-- C1: for every published event, a successful `publish` produces exactly one
message to the publish topic whose key is the UTF-8 encoding of
"{project_id}:{event_id}" and whose value is the JSON encoding of the 4-tuple
(1, "insert", event_record, state_record), where the event record carries
exactly the ten documented fields and the state record is exactly the four
booleans passed to `publish`. -/
theorem publish_produces_single_envelope
    (getEventRetention : Int → Int)
    (produceResult : ProducedMessage → Except String Unit)
    (publish_topic : String) (group : Int) (e : Event)
    (is_new is_sample is_regression is_new_group_environment : Bool)
    (primary_hash : String) (skip_consume : Bool)
    (hok : produceResult (buildMessage publish_topic e
        (getEventRetention e.organization_id) is_new is_sample is_regression
        is_new_group_environment primary_hash) = Except.ok ()) :
    (publish getEventRetention produceResult publish_topic group e is_new
        is_sample is_regression is_new_group_environment primary_hash
        skip_consume).2 = Except.ok () ∧
    List.filterMap produceOf (publish getEventRetention produceResult
        publish_topic group e is_new is_sample is_regression
        is_new_group_environment primary_hash skip_consume).1
      = [buildMessage publish_topic e (getEventRetention e.organization_id)
          is_new is_sample is_regression is_new_group_environment primary_hash] ∧
    (buildMessage publish_topic e (getEventRetention e.organization_id) is_new
        is_sample is_regression is_new_group_environment primary_hash).topic
      = publish_topic ∧
    (buildMessage publish_topic e (getEventRetention e.organization_id) is_new
        is_sample is_regression is_new_group_environment primary_hash).key
      = utf8Encode (toString e.project_id ++ ":" ++ e.event_id) ∧
    (∃ ev, (buildMessage publish_topic e (getEventRetention e.organization_id)
        is_new is_sample is_regression is_new_group_environment
        primary_hash).value
        = JsonV.arr [JsonV.num 1, JsonV.str "insert", JsonV.obj ev,
            JsonV.obj [("is_new", JsonV.bool is_new),
              ("is_sample", JsonV.bool is_sample),
              ("is_regression", JsonV.bool is_regression),
              ("is_new_group_environment", JsonV.bool is_new_group_environment)]] ∧
      ev.map Prod.fst = ["group_id", "event_id", "organization_id",
        "project_id", "message", "platform", "datetime", "data",
        "primary_hash", "retention_days"]) := by
  refine ⟨?_, ?_, rfl, rfl, ⟨_, rfl, rfl⟩⟩
  · simp [publish, hok]
  · simp [publish, hok, produceOf]

/-- Scenario A instance of C1: project_id 42, event_id "abc" gives the key
bytes of "42:abc", and the publish call succeeds producing that one message. -/
theorem publish_produces_single_envelope_witness :
    utf8Encode (toString (42 : Int) ++ ":" ++ "abc") = [52, 50, 58, 97, 98, 99] ∧
    (publish (fun _ => 90) (fun _ => Except.ok ()) "events" 1
        ⟨42, 7, "abc", 5, "hello", "python", JsonV.str "now", []⟩
        true false false true "h1" false).2 = Except.ok () ∧
    List.filterMap produceOf (publish (fun _ => 90) (fun _ => Except.ok ())
        "events" 1 ⟨42, 7, "abc", 5, "hello", "python", JsonV.str "now", []⟩
        true false false true "h1" false).1
      = [buildMessage "events" ⟨42, 7, "abc", 5, "hello", "python",
          JsonV.str "now", []⟩ 90 true false false true "h1"] :=
  ⟨by decide,
   (publish_produces_single_envelope (fun _ => 90) (fun _ => Except.ok ())
      "events" 1 ⟨42, 7, "abc", 5, "hello", "python", JsonV.str "now", []⟩
      true false false true "h1" false rfl).1,
   (publish_produces_single_envelope (fun _ => 90) (fun _ => Except.ok ())
      "events" 1 ⟨42, 7, "abc", 5, "hello", "python", JsonV.str "now", []⟩
      true false false true "h1" false rfl).2.1⟩

/-- C7: when the underlying enqueue cannot accept the message (the produce
call reports a synchronous error), `publish` logs context and propagates the
error to its caller instead of swallowing it. -/
theorem publish_error_propagates
    (getEventRetention : Int → Int)
    (produceResult : ProducedMessage → Except String Unit)
    (publish_topic : String) (group : Int) (e : Event)
    (is_new is_sample is_regression is_new_group_environment : Bool)
    (primary_hash : String) (skip_consume : Bool) (err : String)
    (hfail : produceResult (buildMessage publish_topic e
        (getEventRetention e.organization_id) is_new is_sample is_regression
        is_new_group_environment primary_hash) = Except.error err) :
    (publish getEventRetention produceResult publish_topic group e is_new
        is_sample is_regression is_new_group_environment primary_hash
        skip_consume).2 = Except.error err ∧
    (publish getEventRetention produceResult publish_topic group e is_new
        is_sample is_regression is_new_group_environment primary_hash
        skip_consume).1
      = [PubAction.drainPoll,
         PubAction.logWarning ("Could not publish event: " ++ err)] := by
  constructor <;> simp [publish, hfail]

/-- Witness for C7: a saturated send queue propagates as an error outcome. -/
theorem publish_error_propagates_witness :
    (publish (fun _ => 30) (fun _ => Except.error "BufferError: queue full")
        "events" 1 ⟨1, 2, "e1", 3, "m", "p", JsonV.null, []⟩
        false false false false "h" false).2
      = Except.error "BufferError: queue full" :=
  (publish_error_propagates (fun _ => 30)
    (fun _ => Except.error "BufferError: queue full") "events" 1
    ⟨1, 2, "e1", 3, "m", "p", JsonV.null, []⟩
    false false false false "h" false "BufferError: queue full" rfl).1

/-- C8: the delivery acknowledgement callback only logs a warning that
includes the failed message when an error is reported (no retry, no raise:
the callback has no other effect), and does nothing on success. -/
theorem delivery_callback_logs_only (e msg : String) :
    delivery_callback (some e) msg
      = [PubAction.logWarning
          (("Could not publish event (error: " ++ e ++ "): ") ++ msg)] ∧
    (∃ ctx pre, delivery_callback (some e) msg = [PubAction.logWarning ctx] ∧
      ctx = pre ++ msg) ∧
    delivery_callback none msg = [] :=
  ⟨rfl, ⟨("Could not publish event (error: " ++ e ++ "): ") ++ msg,
    "Could not publish event (error: " ++ e ++ "): ", rfl, rfl⟩, rfl⟩

/-- C9: the `skip_consume` parameter of `publish` has no effect: two calls
differing only in it return the same effects and the same result. -/
theorem publish_skip_consume_no_effect
    (getEventRetention : Int → Int)
    (produceResult : ProducedMessage → Except String Unit)
    (publish_topic : String) (group : Int) (e : Event)
    (is_new is_sample is_regression is_new_group_environment : Bool)
    (primary_hash : String) (sc₁ sc₂ : Bool) :
    publish getEventRetention produceResult publish_topic group e is_new
        is_sample is_regression is_new_group_environment primary_hash sc₁
      = publish getEventRetention produceResult publish_topic group e is_new
          is_sample is_regression is_new_group_environment primary_hash sc₂ :=
  rfl

/-- C2: for every valid message processed, the tracker entry for its
(topic, partition) is set to its offset plus one; and, given that the consumer
delivers each partition's messages in non-decreasing offset order (the Kafka
per-partition delivery contract assumed by the source), the stored value for a
fixed key never decreases over the run. -/
theorem relay_offset_tracking (parse : V → Option P) (k : Nat)
    (msgs : List (Message V))
    (hvalid : ∀ m ∈ msgs, m.error = none)
    (horder : List.Pairwise
      (fun a b => (a.topic, a.partition) = (b.topic, b.partition) →
        a.offset ≤ b.offset) msgs) :
    (∀ pre m suf, msgs = pre ++ m :: suf →
      lookupOffset
          (relayLoop parse k ((pre ++ [m]).map PollEvent.msg) 0 []).offsets
          (m.topic, m.partition)
        = some (m.offset + 1)) ∧
    (∀ l₁ l₂ rest, msgs = l₁ ++ l₂ ++ rest → ∀ q v,
      lookupOffset (relayLoop parse k (l₁.map PollEvent.msg) 0 []).offsets q
          = some v →
      ∃ w, lookupOffset
          (relayLoop parse k ((l₁ ++ l₂).map PollEvent.msg) 0 []).offsets q
          = some w ∧ v ≤ w) := by
  constructor
  · intro pre m suf hsplit
    have hv : ∀ x ∈ pre ++ [m], x.error = none := by
      intro x hx
      apply hvalid
      subst hsplit
      rcases List.mem_append.mp hx with h | h
      · exact List.mem_append.mpr (Or.inl h)
      · simp only [List.mem_singleton] at h
        subst h
        simp
    obtain ⟨_, _, hoffs⟩ := relayLoop_valid_state parse k (pre ++ [m]) hv 0 []
    rw [hoffs,
      show trackerFrom ([] : List (PartKey × Nat)) (pre ++ [m])
        = trackerAfter (pre ++ [m]) from rfl,
      lookupOffset_trackerAfter, offsetsOn_append, offsetsOn_singleton]
    simp
  · intro l₁ l₂ rest hsplit q v hv1
    have hvall : ∀ x ∈ l₁ ++ l₂, x.error = none := by
      intro x hx
      apply hvalid
      subst hsplit
      exact List.mem_append.mpr (Or.inl hx)
    have hv1' : ∀ x ∈ l₁, x.error = none := fun x hx =>
      hvall x (List.mem_append.mpr (Or.inl hx))
    obtain ⟨_, _, ho1⟩ := relayLoop_valid_state parse k l₁ hv1' 0 []
    obtain ⟨_, _, ho2⟩ := relayLoop_valid_state parse k (l₁ ++ l₂) hvall 0 []
    rw [ho1,
      show trackerFrom ([] : List (PartKey × Nat)) l₁ = trackerAfter l₁ from rfl,
      lookupOffset_trackerAfter] at hv1
    rw [ho2,
      show trackerFrom ([] : List (PartKey × Nat)) (l₁ ++ l₂)
        = trackerAfter (l₁ ++ l₂) from rfl,
      lookupOffset_trackerAfter, offsetsOn_append]
    obtain ⟨u, hu, huv⟩ := Option.map_eq_some'.mp hv1
    have hsub : (l₁ ++ l₂).Sublist msgs := by
      subst hsplit
      exact List.sublist_append_left _ _
    have hsort : List.Pairwise (fun a b => a ≤ b)
        (offsetsOn q l₁ ++ offsetsOn q l₂) := by
      rw [← offsetsOn_append]
      exact offsetsOn_pairwise_le q (l₁ ++ l₂) (List.Pairwise.sublist hsub horder)
    obtain ⟨w, hw, hle⟩ :=
      getLast?_le_of_sorted_append (offsetsOn q l₁) (offsetsOn q l₂) hsort u hu
    have huv' : u + 1 = v := huv
    exact ⟨w + 1, by rw [hw]; rfl, by omega⟩

/-- Witness for C2 at a two-message run on partitions 0 and 1: after the
first message the tracker maps ("events", 0) to 6, and the stored value for
that key does not decrease once the second message is processed. -/
theorem relay_offset_tracking_witness :
    lookupOffset
        (relayLoop (fun _ => (none : Option Nat)) 2
          ((([] ++ [⟨"events", 0, 5, none, "x"⟩]) : List (Message String)).map
            PollEvent.msg) 0 []).offsets
        ("events", 0) = some 6 :=
  (relay_offset_tracking (fun _ => (none : Option Nat)) 2
      [⟨"events", 0, 5, none, "x"⟩, ⟨"events", 1, 9, none, "y"⟩]
      (by decide) (by decide)).1
    [] ⟨"events", 0, 5, none, "x"⟩ [⟨"events", 1, 9, none, "y"⟩] rfl

/-- C3: with batch size k, the loop issues one synchronous commit exactly at
every k-th consumed message (counted across partitions, empty decodes
included, poll timeouts excluded), each commit carrying the full tracker
contents at that point; the tracker is not cleared by commits (the final
tracker equals the fold of all updates), and graceful shutdown adds one final
synchronous commit of the full tracker when it is non-empty, before close. -/
theorem relay_batched_commits (parse : V → Option P) (k : Nat)
    (msgs : List (Message V)) (hk : 0 < k)
    (hvalid : ∀ m ∈ msgs, m.error = none) :
    List.filterMap commitOf
        (relayLoop parse k (msgs.map PollEvent.msg) 0 []).actions
      = ((List.range' 1 msgs.length).filter (fun t => t % k = 0)).map
          (fun t => (commitPayload (trackerAfter (msgs.take t)), true)) ∧
    (List.filterMap commitOf
        (relayLoop parse k (msgs.map PollEvent.msg) 0 []).actions).length
      = msgs.length / k ∧
    (relayLoop parse k (msgs.map PollEvent.msg) 0 []).offsets
      = trackerAfter msgs ∧
    relay parse k (msgs.map PollEvent.msg ++ [PollEvent.interrupt])
      = ((relayLoop parse k (msgs.map PollEvent.msg) 0 []).actions
          ++ [RelayAction.logInfo]
          ++ (if msgs.isEmpty then []
              else [RelayAction.commit (commitPayload (trackerAfter msgs)) true])
          ++ [RelayAction.close],
         RelayOutcome.shutdown) := by
  have h0 := relayLoop_commits parse k msgs [] hvalid
  simp only [List.length_nil, List.nil_append, Nat.zero_add] at h0
  rw [show trackerAfter ([] : List (Message V)) = [] from rfl] at h0
  obtain ⟨_, _, hoffs⟩ := relayLoop_valid_state parse k msgs hvalid 0 []
  refine ⟨h0, ?_, ?_, relay_interrupt_trace parse k msgs hvalid⟩
  · rw [h0, List.length_map, count_multiples]
  · rw [hoffs]
    rfl

/-- Scenario B instance of C3: batch size 3, seven valid messages: the loop
issues exactly the two synchronous commits after messages 3 and 6, each of the
full tracker at that point. -/
theorem relay_batched_commits_witness :
    0 < 3 ∧
    List.filterMap commitOf
        (relayLoop (fun _ => (none : Option Nat)) 3
          (([⟨"t", 0, 0, none, "v"⟩, ⟨"t", 0, 1, none, "v"⟩,
             ⟨"t", 0, 2, none, "v"⟩, ⟨"t", 0, 3, none, "v"⟩,
             ⟨"t", 0, 4, none, "v"⟩, ⟨"t", 0, 5, none, "v"⟩,
             ⟨"t", 0, 6, none, "v"⟩] : List (Message String)).map
            PollEvent.msg) 0 []).actions
      = [(commitPayload (trackerAfter
            (([⟨"t", 0, 0, none, "v"⟩, ⟨"t", 0, 1, none, "v"⟩,
               ⟨"t", 0, 2, none, "v"⟩, ⟨"t", 0, 3, none, "v"⟩,
               ⟨"t", 0, 4, none, "v"⟩, ⟨"t", 0, 5, none, "v"⟩,
               ⟨"t", 0, 6, none, "v"⟩] : List (Message String)).take 3)), true),
         (commitPayload (trackerAfter
            (([⟨"t", 0, 0, none, "v"⟩, ⟨"t", 0, 1, none, "v"⟩,
               ⟨"t", 0, 2, none, "v"⟩, ⟨"t", 0, 3, none, "v"⟩,
               ⟨"t", 0, 4, none, "v"⟩, ⟨"t", 0, 5, none, "v"⟩,
               ⟨"t", 0, 6, none, "v"⟩] : List (Message String)).take 6)), true)] ∧
    (List.filterMap commitOf
        (relayLoop (fun _ => (none : Option Nat)) 3
          (([⟨"t", 0, 0, none, "v"⟩, ⟨"t", 0, 1, none, "v"⟩,
             ⟨"t", 0, 2, none, "v"⟩, ⟨"t", 0, 3, none, "v"⟩,
             ⟨"t", 0, 4, none, "v"⟩, ⟨"t", 0, 5, none, "v"⟩,
             ⟨"t", 0, 6, none, "v"⟩] : List (Message String)).map
            PollEvent.msg) 0 []).actions).length = 2 :=
  ⟨by decide,
   (relay_batched_commits (fun _ => (none : Option Nat)) 3
      [⟨"t", 0, 0, none, "v"⟩, ⟨"t", 0, 1, none, "v"⟩, ⟨"t", 0, 2, none, "v"⟩,
       ⟨"t", 0, 3, none, "v"⟩, ⟨"t", 0, 4, none, "v"⟩, ⟨"t", 0, 5, none, "v"⟩,
       ⟨"t", 0, 6, none, "v"⟩] (by decide) (by decide)).1,
   (relay_batched_commits (fun _ => (none : Option Nat)) 3
      [⟨"t", 0, 0, none, "v"⟩, ⟨"t", 0, 1, none, "v"⟩, ⟨"t", 0, 2, none, "v"⟩,
       ⟨"t", 0, 3, none, "v"⟩, ⟨"t", 0, 4, none, "v"⟩, ⟨"t", 0, 5, none, "v"⟩,
       ⟨"t", 0, 6, none, "v"⟩] (by decide) (by decide)).2.1⟩

/-- C4: on graceful termination by the external interrupt, the relay issues
exactly one final synchronous commit iff the offset tracker is non-empty, and
closes the consumer in both cases; the call returns normally. -/
theorem relay_graceful_shutdown (parse : V → Option P) (k : Nat)
    (events : List (PollEvent V))
    (hint : (relayLoop parse k events 0 []).ending = LoopEnd.interrupted) :
    ((relayLoop parse k events 0 []).offsets ≠ [] →
      (relay parse k events).1
        = (relayLoop parse k events 0 []).actions
          ++ [RelayAction.logInfo,
              RelayAction.commit
                (commitPayload (relayLoop parse k events 0 []).offsets) true,
              RelayAction.close]) ∧
    ((relayLoop parse k events 0 []).offsets = [] →
      (relay parse k events).1
        = (relayLoop parse k events 0 []).actions
          ++ [RelayAction.logInfo, RelayAction.close]) ∧
    (relay parse k events).2 = RelayOutcome.shutdown := by
  refine ⟨?_, ?_, ?_⟩
  · intro hne
    have hb : (relayLoop parse k events 0 []).offsets.isEmpty = false := by
      cases hoo : (relayLoop parse k events 0 []).offsets with
      | nil => exact absurd hoo hne
      | cons a l => rfl
    simp [relay, hint, hb]
  · intro hnil
    have hb : (relayLoop parse k events 0 []).offsets.isEmpty = true := by
      rw [hnil]
      rfl
    simp [relay, hint, hb]
  · simp [relay, hint]

/-- Witness for C4: one valid message then the interrupt: the shutdown block
logs, commits the single pending offset synchronously, and closes. -/
theorem relay_graceful_shutdown_witness :
    (relay (fun _ => (none : Option Nat)) 5
        ([PollEvent.msg ⟨"t", 0, 1, none, "v"⟩, PollEvent.interrupt]
          : List (PollEvent String))).1
      = [RelayAction.logInfo, RelayAction.commit [("t", 0, 2)] true,
         RelayAction.close] :=
  (relay_graceful_shutdown (fun _ => (none : Option Nat)) 5
      [PollEvent.msg ⟨"t", 0, 1, none, "v"⟩, PollEvent.interrupt]
      (by decide)).1 (by decide)

/-- C5: a broker-reported message error terminates the relay by raising; on
this path the trace is exactly the loop's own actions: no final commit is
appended and the consumer is never closed (strictly weaker cleanup than the
graceful path). -/
theorem relay_fatal_skips_cleanup (parse : V → Option P) (k : Nat)
    (events : List (PollEvent V)) (err : String)
    (hfat : (relayLoop parse k events 0 []).ending = LoopEnd.fatal err) :
    (relay parse k events).2 = RelayOutcome.raised err ∧
    (relay parse k events).1 = (relayLoop parse k events 0 []).actions ∧
    RelayAction.close ∉ (relay parse k events).1 := by
  have h1 : relay parse k events
      = ((relayLoop parse k events 0 []).actions, RelayOutcome.raised err) := by
    simp [relay, hfat]
  refine ⟨by rw [h1], by rw [h1], ?_⟩
  rw [h1]
  intro hmem
  rcases relayLoop_actions_shape parse k events 0 [] RelayAction.close hmem with
    ⟨p, hp⟩ | ⟨o, s, hp⟩ <;> simp at hp

/-- Witness for C5: a message carrying a broker error makes the relay raise. -/
theorem relay_fatal_skips_cleanup_witness :
    (relay (fun _ => (none : Option Nat)) 5
        ([PollEvent.msg ⟨"t", 0, 1, some "boom", "v"⟩]
          : List (PollEvent String))).2
      = RelayOutcome.raised "boom" :=
  (relay_fatal_skips_cleanup (fun _ => (none : Option Nat)) 5
      [PollEvent.msg ⟨"t", 0, 1, some "boom", "v"⟩] "boom" (by decide)).1

/-- C6: every valid consumed message counts toward the batch and updates its
partition's tracker entry even when its decode is empty, and a dispatch is
issued exactly for the messages whose decode is non-empty, in order. -/
theorem relay_empty_decode_counts_no_dispatch (parse : V → Option P) (k : Nat)
    (msgs : List (Message V)) (hvalid : ∀ m ∈ msgs, m.error = none) :
    (relayLoop parse k (msgs.map PollEvent.msg) 0 []).count = msgs.length ∧
    List.filterMap dispatchOf
        (relayLoop parse k (msgs.map PollEvent.msg) 0 []).actions
      = msgs.filterMap (fun m => parse m.value) ∧
    ∀ m ∈ msgs,
      lookupOffset (relayLoop parse k (msgs.map PollEvent.msg) 0 []).offsets
          (m.topic, m.partition) ≠ none := by
  obtain ⟨hend, hcount, hoffs⟩ := relayLoop_valid_state parse k msgs hvalid 0 []
  refine ⟨by rw [hcount, Nat.zero_add],
    relayLoop_dispatches parse k msgs hvalid 0 [], ?_⟩
  intro m hm
  rw [hoffs,
    show trackerFrom ([] : List (PartKey × Nat)) msgs = trackerAfter msgs from rfl,
    lookupOffset_trackerAfter]
  have hmem : m.offset ∈ offsetsOn (m.topic, m.partition) msgs := by
    rw [offsetsOn, List.mem_filterMap]
    exact ⟨m, hm, by simp⟩
  have hne : offsetsOn (m.topic, m.partition) msgs ≠ [] :=
    List.ne_nil_of_mem hmem
  cases hg : (offsetsOn (m.topic, m.partition) msgs).getLast? with
  | none => exact absurd (List.getLast?_eq_none_iff.mp hg) hne
  | some u => simp [hg]

/-- Witness for C6: of two valid messages, the one decoding to Empty still
counts (count 2) but only the other is dispatched. -/
theorem relay_empty_decode_counts_no_dispatch_witness :
    (relayLoop (fun s => if s = "skip" then (none : Option String) else some s)
        9 (([⟨"t", 0, 3, none, "skip"⟩, ⟨"t", 0, 4, none, "go"⟩]
            : List (Message String)).map PollEvent.msg) 0 []).count = 2 ∧
    List.filterMap dispatchOf
        (relayLoop (fun s => if s = "skip" then (none : Option String) else some s)
          9 (([⟨"t", 0, 3, none, "skip"⟩, ⟨"t", 0, 4, none, "go"⟩]
              : List (Message String)).map PollEvent.msg) 0 []).actions
      = ["go"] :=
  ⟨(relay_empty_decode_counts_no_dispatch
      (fun s => if s = "skip" then (none : Option String) else some s) 9
      [⟨"t", 0, 3, none, "skip"⟩, ⟨"t", 0, 4, none, "go"⟩] (by decide)).1,
   (relay_empty_decode_counts_no_dispatch
      (fun s => if s = "skip" then (none : Option String) else some s) 9
      [⟨"t", 0, 3, none, "skip"⟩, ⟨"t", 0, 4, none, "go"⟩] (by decide)).2.1⟩

/-- C10: a polled message carrying a broker-reported error leaves the relay
state exactly as it was: no count increment, no tracker update, no dispatch,
no commit — the run's actions, count and offsets are those of the prefix
before the error, and the loop ends fatally. -/
theorem relay_broker_error_leaves_state (parse : V → Option P) (k : Nat)
    (pre : List (PollEvent V)) (m : Message V) (rest : List (PollEvent V))
    (err : String)
    (hpre : (relayLoop parse k pre 0 []).ending = LoopEnd.exhausted)
    (herr : m.error = some err) :
    relayLoop parse k (pre ++ PollEvent.msg m :: rest) 0 []
      = ⟨(relayLoop parse k pre 0 []).actions, LoopEnd.fatal err,
         (relayLoop parse k pre 0 []).count,
         (relayLoop parse k pre 0 []).offsets⟩ := by
  have happ := relayLoop_append parse k pre (PollEvent.msg m :: rest) 0 [] hpre
  rw [happ]
  simp [relayLoop, herr]

/-- Witness for C10: after a timeout and one valid message, a broker-errored
message stops the run with the state (count 1, one tracker entry) and trace
(no actions) exactly as before it, ignoring the rest of the input. -/
theorem relay_broker_error_leaves_state_witness :
    relayLoop (fun _ => (none : Option Nat)) 5
        (([PollEvent.timeout, PollEvent.msg ⟨"t", 0, 1, none, "v"⟩]
           : List (PollEvent String))
          ++ PollEvent.msg ⟨"t", 0, 2, some "broker fail", "w"⟩
            :: [PollEvent.msg ⟨"t", 0, 3, none, "z"⟩]) 0 []
      = ⟨[], LoopEnd.fatal "broker fail", 1, [(("t", 0), 2)]⟩ :=
  relay_broker_error_leaves_state (fun _ => (none : Option Nat)) 5
    [PollEvent.timeout, PollEvent.msg ⟨"t", 0, 1, none, "v"⟩]
    ⟨"t", 0, 2, some "broker fail", "w"⟩
    [PollEvent.msg ⟨"t", 0, 3, none, "z"⟩] "broker fail" (by decide) rfl
